import Mathlib

/-!
Verification of the securevault security-service core
(`services/encryption.py`, `services/breach.py` and the routers that
classify their errors).

Conventions of the embedding:
* A byte is a `Nat` together with the invariant `b < 256` (`ValidBytes`).
* Python strings that hold binary data are `List Nat`; text is `List Char`.
* A plaintext is represented by its UTF-8 byte sequence (the source calls
  `plaintext.encode('utf-8')` on entry to `encrypt` and
  `plaintext_bytes.decode('utf-8')` on exit of `decrypt`; these are mutual
  inverses on honestly produced data, so the core is stated at byte level).
* The AES-GCM primitive (`cryptography.hazmat...AESGCM`) is third-party
  library code, not part of this repository; it is embedded as an abstract
  `AEADPrimitive` and its documented contract (round-trip, 16-byte appended
  tag, rejection of tampered inputs with `InvalidTag`) enters the theorems
  as explicit hypotheses at the points where it is used.
-/

/-- Bytes: every element of the list is in range. -/
def ValidBytes (bs : List Nat) : Prop := ∀ b ∈ bs, b < 256

instance : DecidablePred ValidBytes := fun bs =>
  List.decidableBAll (fun b => b < 256) bs

/-- The standard base64 alphabet, models the table used by `base64.b64encode`. -/
def b64chr (n : Nat) : Char :=
  if n < 26 then Char.ofNat (65 + n)
  else if n < 52 then Char.ofNat (97 + (n - 26))
  else if n < 62 then Char.ofNat (48 + (n - 52))
  else if n = 62 then '+'
  else '/'

/-- Inverse table lookup used by `base64.b64decode`. -/
def b64ord (c : Char) : Option Nat :=
  if 65 ≤ c.toNat ∧ c.toNat ≤ 90 then some (c.toNat - 65)
  else if 97 ≤ c.toNat ∧ c.toNat ≤ 122 then some (c.toNat - 97 + 26)
  else if 48 ≤ c.toNat ∧ c.toNat ≤ 57 then some (c.toNat - 48 + 52)
  else if c = '+' then some 62
  else if c = '/' then some 63
  else none

/-- Models `base64.b64encode(...).decode()`: three bytes become four
alphabet characters, a short final group is padded with `=`. -/
def b64encodeBytes : List Nat → List Char
  | [] => []
  | [b0] => [b64chr (b0 / 4), b64chr (b0 % 4 * 16), '=', '=']
  | [b0, b1] => [b64chr (b0 / 4), b64chr (b0 % 4 * 16 + b1 / 16), b64chr (b1 % 16 * 4), '=']
  | b0 :: b1 :: b2 :: rest =>
      b64chr (b0 / 4) :: b64chr (b0 % 4 * 16 + b1 / 16) ::
      b64chr (b1 % 16 * 4 + b2 / 64) :: b64chr (b2 % 64) :: b64encodeBytes rest

/-- Models `base64.b64decode`: four-character groups, `=`-padding allowed only
in the final group, `none` on malformed input (Python raises `binascii.Error`).
The lenient discarding of non-alphabet characters that `b64decode` performs
with `validate=False` is not modelled; no claim depends on it. -/
def b64decodeBytes : List Char → Option (List Nat)
  | [] => some []
  | c0 :: c1 :: c2 :: c3 :: rest =>
    match b64ord c0, b64ord c1 with
    | some s0, some s1 =>
      if c2 = '=' then
        if c3 = '=' ∧ rest = [] then some [s0 * 4 + s1 / 16] else none
      else
        match b64ord c2 with
        | some s2 =>
          if c3 = '=' then
            if rest = [] then some [s0 * 4 + s1 / 16, s1 % 16 * 16 + s2 / 4] else none
          else
            match b64ord c3, b64decodeBytes rest with
            | some s3, some tail =>
                some ((s0 * 4 + s1 / 16) :: (s1 % 16 * 16 + s2 / 4) :: (s2 % 4 * 64 + s3) :: tail)
            | _, _ => none
        | none => none
    | _, _ => none
  | _ => none

theorem b64ord_b64chr : ∀ n, n < 64 → b64ord (b64chr n) = some n := by decide

theorem b64chr_ne_pad : ∀ n, n < 64 → b64chr n ≠ '=' := by decide

/-- Decoding inverts encoding on genuine byte lists. -/
theorem b64_roundtrip : ∀ (bs : List Nat), ValidBytes bs →
    b64decodeBytes (b64encodeBytes bs) = some bs
  | [], _ => rfl
  | [b0], h => by
    have h0 : b0 < 256 := h b0 (by simp)
    have e0 := b64ord_b64chr (b0 / 4) (by omega)
    have e1 := b64ord_b64chr (b0 % 4 * 16) (by omega)
    simp only [b64encodeBytes, b64decodeBytes, e0, e1, if_pos rfl, and_self, if_true,
      Option.some.injEq, List.cons.injEq, and_true]
    omega
  | [b0, b1], h => by
    have h0 : b0 < 256 := h b0 (by simp)
    have h1 : b1 < 256 := h b1 (by simp)
    have e0 := b64ord_b64chr (b0 / 4) (by omega)
    have e1 := b64ord_b64chr (b0 % 4 * 16 + b1 / 16) (by omega)
    have e2 := b64ord_b64chr (b1 % 16 * 4) (by omega)
    have n2 := b64chr_ne_pad (b1 % 16 * 4) (by omega)
    simp only [b64encodeBytes, b64decodeBytes, e0, e1, e2, n2, if_false, ite_false, if_true,
      if_pos rfl, Option.some.injEq, List.cons.injEq, and_true]
    constructor <;> omega
  | b0 :: b1 :: b2 :: rest, h => by
    have h0 : b0 < 256 := h b0 (by simp)
    have h1 : b1 < 256 := h b1 (by simp)
    have h2 : b2 < 256 := h b2 (by simp)
    have hrest : ValidBytes rest := fun b hb => h b (by simp [hb])
    have ih := b64_roundtrip rest hrest
    have e0 := b64ord_b64chr (b0 / 4) (by omega)
    have e1 := b64ord_b64chr (b0 % 4 * 16 + b1 / 16) (by omega)
    have e2 := b64ord_b64chr (b1 % 16 * 4 + b2 / 64) (by omega)
    have e3 := b64ord_b64chr (b2 % 64) (by omega)
    have n2 := b64chr_ne_pad (b1 % 16 * 4 + b2 / 64) (by omega)
    have n3 := b64chr_ne_pad (b2 % 64) (by omega)
    simp only [b64encodeBytes, b64decodeBytes, e0, e1, e2, e3, n2, n3, if_false, ite_false,
      if_true, ih, Option.some.injEq, List.cons.injEq]
    refine ⟨by omega, by omega, by omega, trivial⟩

/-- The transport envelope returned by `encrypt` (`services/encryption.py`
lines 58-62): the dict of base64 strings `ciphertext`, `iv`, `tag`. -/
structure Envelope where
  ciphertext : List Char
  iv : List Char
  tag : List Char
deriving DecidableEq

/-- Abstract interface of the `AESGCM` object from the `cryptography`
library (third-party code, not part of this repository).  `enc key nonce pt`
models `AESGCM(key).encrypt(nonce, pt, None)`, which returns the ciphertext
with the 16-byte authentication tag appended; `dec key nonce data` models
`AESGCM(key).decrypt(nonce, data, None)`, with `none` standing for the
`InvalidTag` exception.  This interface collapses the primitive's two
failure modes (`InvalidTag` vs the `ValueError` raised for a nonce length
the primitive refuses outright); it is therefore used only at inputs where
each theorem's hypotheses pin which behaviour occurs — 12-byte nonces the
primitive always accepts.  The full two-mode failure classification is
modelled separately by `GCMDecOutcome` and `decryptClassified`. -/
structure AEADPrimitive where
  enc : List Nat → List Nat → List Nat → List Nat
  dec : List Nat → List Nat → List Nat → Option (List Nat)

/-- The error kinds raised by `_load_key` (`services/encryption.py` lines
22-32): `configError` is the `RuntimeError` raised explicitly for an absent
key or a wrong decoded length (the spec's `ConfigurationError`);
`valueError` is the `ValueError` that `bytes.fromhex` raises on non-hex
input, which `_load_key` does not catch or convert. -/
inductive KeyError' where
  | configError
  | valueError
deriving DecidableEq

/-- One hex digit, as consumed by `bytes.fromhex`. -/
def hexDigitVal (c : Char) : Option Nat :=
  if 48 ≤ c.toNat ∧ c.toNat ≤ 57 then some (c.toNat - 48)
  else if 97 ≤ c.toNat ∧ c.toNat ≤ 102 then some (c.toNat - 97 + 10)
  else if 65 ≤ c.toNat ∧ c.toNat ≤ 70 then some (c.toNat - 65 + 10)
  else none

/-- Models `bytes.fromhex`: pairs of hex digits, `none` for a non-hex
character or an odd number of digits (Python raises `ValueError`).  The
tolerance of `bytes.fromhex` for ASCII whitespace between byte pairs is not
modelled; no claim depends on it. -/
def bytesFromHex : List Char → Option (List Nat)
  | [] => some []
  | c0 :: c1 :: rest =>
    match hexDigitVal c0, hexDigitVal c1, bytesFromHex rest with
    | some h0, some h1, some tail => some ((h0 * 16 + h1) :: tail)
    | _, _, _ => none
  | _ => none

/-- `_load_key` (`services/encryption.py` lines 22-32).  The argument is the
value of the `VAULT_ENCRYPTION_KEY` environment variable (`none` when the
variable is unset).  `if not key_hex` treats the empty string like an unset
variable. -/
def load_key (keyHex : Option (List Char)) : Except KeyError' (List Nat) :=
  match keyHex with
  | none => .error .configError
  | some s =>
    if s.isEmpty then .error .configError
    else
      match bytesFromHex s with
      | none => .error .valueError
      | some k => if k.length = 32 then .ok k else .error .configError

/-- `ciphertext_with_tag[:-16]` (`services/encryption.py` line 55). -/
def ctOf (cwt : List Nat) : List Nat := cwt.take (cwt.length - 16)

/-- `ciphertext_with_tag[-16:]` (`services/encryption.py` line 56). -/
def tagOf (cwt : List Nat) : List Nat := cwt.drop (cwt.length - 16)

/-- The body of `encrypt` (`services/encryption.py` lines 43-62) after the
key has been loaded.  `ivBytes` is the value returned by
`secrets.token_bytes(12)`: the random source is modelled as an input, and
`ptBytes` is the UTF-8 encoding of the plaintext argument. -/
def encryptBody (A : AEADPrimitive) (key ivBytes ptBytes : List Nat) : Envelope :=
  { ciphertext := b64encodeBytes (ctOf (A.enc key ivBytes ptBytes))
  , iv := b64encodeBytes ivBytes
  , tag := b64encodeBytes (tagOf (A.enc key ivBytes ptBytes)) }

/-- `encrypt` (`services/encryption.py` lines 35-62): `_load_key` runs first
and its exceptions propagate before any cryptographic operation. -/
def encrypt (A : AEADPrimitive) (keyHex : Option (List Char)) (ivBytes ptBytes : List Nat) :
    Except KeyError' Envelope :=
  match load_key keyHex with
  | .error e => .error e
  | .ok key => .ok (encryptBody A key ivBytes ptBytes)

/-- Outcome of `decrypt` as classified by `decrypt_endpoint`
(`routers/encrypt.py` lines 27-40): `ok` is the 200 path, `authFailure` is
the `InvalidTag` branch (422, the tamper signal), `decodingError` is the
catch-all branch for other exceptions such as `binascii.Error` from base64
decoding (400). -/
inductive DecryptResult where
  | ok (ptBytes : List Nat)
  | authFailure
  | decodingError
deriving DecidableEq

/-- The body of `decrypt` (`services/encryption.py` lines 73-84) after the
key has been loaded: base64-decode the three fields (any failure is a
decoding error), reassemble `ciphertext + tag`, and run AEAD verification
under the provided nonce; `InvalidTag` surfaces as `authFailure`.  No length
check is performed on any field.  Because `AEADPrimitive.dec` collapses the
primitive's failure modes, this view is used only under hypotheses that pin
the primitive's behaviour at the given input (accepted 12-byte nonces); the
full classification, including the primitive's `ValueError` path and the
final `plaintext_bytes.decode('utf-8')` step, is `decryptClassified` below.
Here plaintexts are represented by their UTF-8 bytes. -/
def decryptBody (A : AEADPrimitive) (key : List Nat) (e : Envelope) : DecryptResult :=
  match b64decodeBytes e.ciphertext, b64decodeBytes e.iv, b64decodeBytes e.tag with
  | some ciphertext, some iv, some tag =>
    match A.dec key iv (ciphertext ++ tag) with
    | some pt => .ok pt
    | none => .authFailure
  | _, _, _ => .decodingError

/-- `decrypt` (`services/encryption.py` lines 65-84): `_load_key` runs first
and its exceptions propagate. -/
def decrypt (A : AEADPrimitive) (keyHex : Option (List Char)) (e : Envelope) :
    Except KeyError' DecryptResult :=
  match load_key keyHex with
  | .error er => .error er
  | .ok key => .ok (decryptBody A key e)

/-- Flip bit `j` of byte `i` of a byte string. -/
def flipBit (bs : List Nat) (i j : Nat) : List Nat :=
  bs.set i (bs.getD i 0 ^^^ 2 ^ j)

/-- Which field of the envelope a tampering experiment alters. -/
inductive TamperSite where
  | ct
  | iv
  | tag
deriving DecidableEq

/-- The ciphertext bytes after the tampering experiment. -/
def tamperedCt (site : TamperSite) (ct : List Nat) (i j : Nat) : List Nat :=
  match site with
  | .ct => flipBit ct i j
  | _ => ct

/-- The nonce bytes after the tampering experiment. -/
def tamperedIv (site : TamperSite) (iv : List Nat) (i j : Nat) : List Nat :=
  match site with
  | .iv => flipBit iv i j
  | _ => iv

/-- The tag bytes after the tampering experiment. -/
def tamperedTag (site : TamperSite) (tg : List Nat) (i j : Nat) : List Nat :=
  match site with
  | .tag => flipBit tg i j
  | _ => tg

/-- Length of the field selected by a tamper site. -/
def siteLen (site : TamperSite) (ct iv tg : List Nat) : Nat :=
  match site with
  | .ct => ct.length
  | .iv => iv.length
  | .tag => tg.length

/-- `HIBP_API_URL` (`services/breach.py` line 24). -/
def HIBP_API_URL : List Char := "https://api.pwnedpasswords.com/range".toList

/-- The outbound HTTP request, as constructed by `client.get` in
`check_password_breach` (`services/breach.py` lines 45-52): the URL with the
prefix as final path segment, plus the two literal headers. -/
structure HttpRequest where
  url : List Char
  headers : List (List Char × List Char)
deriving DecidableEq

/-- Outcome of the outbound range lookup as seen by the service: a response
with its status code and text body, a timeout (`httpx.TimeoutException`), or
a connection failure (`httpx.ConnectError`). -/
inductive NetOutcome where
  | ok (status : Nat) (body : List Char)
  | timeout
  | connectError
deriving DecidableEq

/-- Outcome of `check_password_breach` as classified by `breach_check`
(`routers/breach.py` lines 20-36): `result` is the normal return value,
`serviceError` covers the `httpx` transport exceptions and the
`HTTPStatusError` from `raise_for_status`, and `valueError` is the
`ValueError` escaping from `line.split(":")` unpacking or `int(count)` (the
router's `except Exception` maps every exception to a 503). -/
inductive BreachOutcome where
  | result (breached : Bool) (count : Int)
  | serviceError
  | valueError
deriving DecidableEq

/-- Digits-only parse used to model Python's `int(str)`: optional sign,
then at least one decimal digit.  `int`'s tolerance for surrounding
whitespace and embedded underscores is not modelled; no claim depends on it. -/
def parseDigits (cs : List Char) : Option Nat :=
  cs.foldl
    (fun acc c =>
      match acc with
      | some n => if 48 ≤ c.toNat ∧ c.toNat ≤ 57 then some (n * 10 + (c.toNat - 48)) else none
      | none => none)
    (some 0)

/-- Models `int(count)` in `services/breach.py` line 61; `none` is the
`ValueError` raised for a non-integer field. -/
def parseIntPy (cs : List Char) : Option Int :=
  match cs with
  | [] => none
  | '+' :: rest => if rest.isEmpty then none else (parseDigits rest).map (fun n => (n : Int))
  | '-' :: rest => if rest.isEmpty then none else (parseDigits rest).map (fun n => -(n : Int))
  | _ => (parseDigits cs).map (fun n => (n : Int))

/-- A response line that `check_password_breach` passes over without error:
`line.split(":")` yields exactly two fields and the suffix field does not
match (so `int(count)` is never reached). -/
def wfNonMatch (sfx : List Char) (line : List Char) : Bool :=
  match line.splitOn ':' with
  | [a, _] => a.map Char.toUpper ≠ sfx
  | _ => false

/-- The response scan of `check_password_breach` (`services/breach.py` lines
58-64): for each line, `returned_suffix, count = line.split(":")` (a
`ValueError` if the split does not yield exactly two fields), then the
case-normalized suffix comparison; `int(count)` is evaluated only on a
match.  Falling off the end returns `(False, 0)`. -/
def scanLines (sfx : List Char) : List (List Char) → BreachOutcome
  | [] => .result false 0
  | line :: rest =>
    match line.splitOn ':' with
    | [returnedSuffix, count] =>
      if returnedSuffix.map Char.toUpper = sfx then
        match parseIntPy count with
        | some n => .result true n
        | none => .valueError
      else scanLines sfx rest
    | _ => .valueError

/-- Models `str.splitlines` for newline-separated bodies: split on `'\n'`,
with no trailing empty line when the body ends in a newline. -/
def splitLines (s : List Char) : List (List Char) :=
  match s with
  | [] => []
  | _ =>
    if (s.splitOn '\n').getLast? = some [] then (s.splitOn '\n').dropLast
    else s.splitOn '\n'

/-- The outbound request of `check_password_breach` (`services/breach.py`
lines 38-52): SHA-1 digest of the password, uppercased
(`hexdigest().upper()`), truncated to its first five characters
(`sha1_hash[:5]`), then interpolated as the final URL path segment.  The
SHA-1 function itself is library code (`hashlib`), kept abstract as the
`sha1hex` parameter, which maps the password to the 40 lowercase hex
characters of `hexdigest()`. -/
def outboundRequest (sha1hex : List Char → List Char) (password : List Char) : HttpRequest :=
  { url := HIBP_API_URL ++ '/' :: (((sha1hex password).map Char.toUpper).take 5)
  , headers := [("Add-Padding".toList, "true".toList), ("User-Agent".toList, "SecureVault/1.0".toList)] }

/-- `check_password_breach` (`services/breach.py` lines 27-64), with the
network modelled as a function from the constructed request to its outcome.
Transport failures and `response.raise_for_status()` (any non-2xx status in
`httpx`) surface as `serviceError`; otherwise the body is split into lines
and scanned for the locally kept 35-character suffix (`sha1_hash[5:]`). -/
def check_password_breach (sha1hex : List Char → List Char) (net : HttpRequest → NetOutcome)
    (password : List Char) : BreachOutcome :=
  match net (outboundRequest sha1hex password) with
  | .timeout => .serviceError
  | .connectError => .serviceError
  | .ok status body =>
    if status < 200 ∨ 300 ≤ status then .serviceError
    else scanLines (((sha1hex password).map Char.toUpper).drop 5) (splitLines body)

/-- Uppercase-hex alphabet of a digest character after `.upper()`. -/
def hexUp (c : Char) : Bool :=
  (48 ≤ c.toNat && c.toNat ≤ 57) || (65 ≤ c.toNat && c.toNat ≤ 70)

/-- A concrete inhabitant of the `AEADPrimitive` interface, used to witness
the theorems at concrete inputs.  It is not AES-GCM (whose internals are
library code outside this repository); it only realizes the interface shape
the theorems assume explicitly: the ciphertext is followed by a 16-byte tag
determined by key, nonce and ciphertext, and decryption succeeds exactly
when the recomputed tag matches. -/
def modelTag (key nonce ct : List Nat) : List Nat :=
  List.replicate 16 ((key.sum + nonce.sum + ct.sum) % 256)

/-- Encryption side of the concrete model primitive. -/
def modelEnc (key nonce pt : List Nat) : List Nat := pt ++ modelTag key nonce pt

/-- Decryption side of the concrete model primitive. -/
def modelDec (key nonce c : List Nat) : Option (List Nat) :=
  if 16 ≤ c.length ∧ c.drop (c.length - 16) = modelTag key nonce (c.take (c.length - 16))
  then some (c.take (c.length - 16)) else none

/-- The concrete model primitive. -/
def modelAEAD : AEADPrimitive := { enc := modelEnc, dec := modelDec }

/-- A stand-in for `hashlib.sha1(...).hexdigest()` whose digests start with
five zeros and continue with 35 letters `a`. -/
def stubSha1A : List Char → List Char := fun _ => "00000".toList ++ List.replicate 35 'a'

/-- A stand-in digest function whose digests end in 35 letters `c`. -/
def stubSha1C : List Char → List Char := fun _ => "00000".toList ++ List.replicate 35 'c'

/-- Helper: flipping a bit keeps bytes in range. -/
theorem validBytes_flipBit (bs : List Nat) (i j : Nat) (h : ValidBytes bs) (hj : j < 8) :
    ValidBytes (flipBit bs i j) := by
  intro b hb
  rcases List.mem_or_eq_of_mem_set hb with hmem | rfl
  · exact h b hmem
  · have hd : bs.getD i 0 < 256 := by
      rcases lt_or_le i bs.length with hi | hi
      · rw [List.getD_eq_getElem _ _ hi]
        exact h _ (List.getElem_mem hi)
      · rw [List.getD_eq_default _ _ hi]
        omega
    have hp : (2 : Nat) ^ j < 256 := by
      calc (2 : Nat) ^ j ≤ 2 ^ 7 := Nat.pow_le_pow_right (by omega) (by omega)
      _ < 256 := by omega
    exact Nat.xor_lt_two_pow (n := 8) hd hp

/-- Helper: flipping a bit inside the string genuinely changes it. -/
theorem flipBit_ne (bs : List Nat) (i j : Nat) (hi : i < bs.length) :
    flipBit bs i j ≠ bs := by
  intro heq
  have hi' : i < (bs.set i (bs.getD i 0 ^^^ 2 ^ j)).length := by simpa using hi
  have h1 : (flipBit bs i j).getD i 0 = bs.getD i 0 ^^^ 2 ^ j := by
    rw [flipBit, List.getD_eq_getElem _ _ hi', List.getElem_set_self]
  rw [heq] at h1
  have h2 : bs.getD i 0 ^^^ (bs.getD i 0 ^^^ 2 ^ j) = bs.getD i 0 ^^^ bs.getD i 0 := by
    rw [← h1]
  rw [← Nat.xor_assoc, Nat.xor_self, Nat.zero_xor] at h2
  have h3 : (0 : Nat) < 2 ^ j := Nat.pos_pow_of_pos j (by omega)
  omega

/-- Helper: the two halves of `ciphertext_with_tag` reassemble to it. -/
theorem ctOf_append_tagOf (cwt : List Nat) : ctOf cwt ++ tagOf cwt = cwt :=
  List.take_append_drop _ cwt

/-- Helper: the ciphertext half is made of bytes. -/
theorem validBytes_ctOf (cwt : List Nat) (h : ValidBytes cwt) : ValidBytes (ctOf cwt) :=
  fun b hb => h b ((List.take_sublist _ _).subset hb)

/-- Helper: the tag half is made of bytes. -/
theorem validBytes_tagOf (cwt : List Nat) (h : ValidBytes cwt) : ValidBytes (tagOf cwt) :=
  fun b hb => h b ((List.drop_sublist _ _).subset hb)

/-- Helper: decrypting the envelope assembled from byte fields runs the
primitive on exactly those bytes. -/
theorem decryptBody_encoded (A : AEADPrimitive) (key ct iv tg : List Nat)
    (hct : ValidBytes ct) (hiv : ValidBytes iv) (htg : ValidBytes tg) :
    decryptBody A key
      { ciphertext := b64encodeBytes ct, iv := b64encodeBytes iv, tag := b64encodeBytes tg } =
      (match A.dec key iv (ct ++ tg) with
       | some pt => .ok pt
       | none => .authFailure) := by
  simp only [decryptBody, b64_roundtrip ct hct, b64_roundtrip iv hiv, b64_roundtrip tg htg]

/-- Helper: a run of well-formed, non-matching lines is passed over by the
scan without affecting its result. -/
theorem scanLines_append_skip (sfx : List Char) (pre xs : List (List Char))
    (h : ∀ l ∈ pre, wfNonMatch sfx l = true) :
    scanLines sfx (pre ++ xs) = scanLines sfx xs := by
  induction pre with
  | nil => rfl
  | cons l pre ih =>
    have hl := h l (by simp)
    have hrest : ∀ l' ∈ pre, wfNonMatch sfx l' = true := fun l' hl' => h l' (by simp [hl'])
    rcases hsp : l.splitOn ':' with _ | ⟨a, _ | ⟨b, _ | ⟨c, tl⟩⟩⟩ <;>
      simp only [wfNonMatch, hsp] at hl
    · exact absurd hl (by simp)
    · exact absurd hl (by simp)
    · have hne : a.map Char.toUpper ≠ sfx := by simpa using hl
      simp only [List.cons_append, scanLines, hsp, if_neg hne]
      exact ih hrest
    · exact absurd hl (by simp)

/-- Helper: a line whose `split(":")` does not produce exactly two fields
makes the scan raise `ValueError`. -/
theorem scanLines_badSplit (sfx : List Char) (l : List Char) (xs : List (List Char))
    (h : (l.splitOn ':').length ≠ 2) :
    scanLines sfx (l :: xs) = .valueError := by
  rcases hsp : l.splitOn ':' with _ | ⟨a, _ | ⟨b, _ | ⟨c, tl⟩⟩⟩ <;>
    simp only [scanLines, hsp]
  · rw [hsp] at h; simp at h

/-- Helper: a two-field non-matching line is skipped without its count field
being parsed. -/
theorem scanLines_nonMatch_skip (sfx a b : List Char) (l : List Char) (xs : List (List Char))
    (hsp : l.splitOn ':' = [a, b]) (hne : a.map Char.toUpper ≠ sfx) :
    scanLines sfx (l :: xs) = scanLines sfx xs := by
  simp only [scanLines, hsp, if_neg hne]

/-- The URL prefix up to and including the final slash, a list of 37
characters none of which is an uppercase hex digit. -/
def rangeUrlBase : List Char := HIBP_API_URL ++ ['/']

theorem rangeUrlBase_len : rangeUrlBase.length = 37 := by decide

theorem rangeUrlBase_nonHex : ∀ c ∈ rangeUrlBase, hexUp c = false := by decide

/-- Helper: any all-uppercase-hex run occurring inside the range URL fits
inside its final path segment. -/
theorem hexRun_le (w p : List Char) (hw : ∀ c ∈ w, hexUp c = true)
    (hinf : ∃ s t, s ++ w ++ t = rangeUrlBase ++ p) : w.length ≤ p.length := by
  by_contra hlt
  push_neg at hlt
  obtain ⟨s, t, hst⟩ := hinf
  have hlen := congrArg List.length hst
  simp only [List.length_append, rangeUrlBase_len] at hlen
  have hs : s.length < 37 := by omega
  have hw0 : 0 < w.length := by omega
  have hs' : s.length < rangeUrlBase.length := by rw [rangeUrlBase_len]; exact hs
  have e := congrArg (fun l : List Char => l[s.length]?) hst
  simp only at e
  have hswl : s.length < (s ++ w).length := by
    simp only [List.length_append]; omega
  rw [List.getElem?_append, if_pos hswl] at e
  rw [List.getElem?_append, if_neg (by omega : ¬ s.length < s.length)] at e
  rw [Nat.sub_self] at e
  rw [List.getElem?_append, if_pos hs'] at e
  rcases hsome : w[0]? with _ | c
  · rw [List.getElem?_eq_none_iff] at hsome
    omega
  · rw [hsome] at e
    have hcw : c ∈ w := List.getElem?_mem hsome
    have hcb : c ∈ rangeUrlBase := List.getElem?_mem e.symm
    have h1 : hexUp c = true := hw c hcw
    have h2 : hexUp c = false := rangeUrlBase_nonHex c hcb
    rw [h1] at h2
    exact absurd h2 (by simp)

/-- Concrete key used by witnesses: 32 zero bytes. -/
def keyW : List Nat := List.replicate 32 0

/-- Concrete 12-byte nonce used by witnesses. -/
def ivW : List Nat := [0, 1, 2, 3, 4, 5, 6, 7, 8, 9, 10, 11]

/-- Concrete plaintext bytes used by witnesses (UTF-8 of "hi"). -/
def ptW : List Nat := [104, 105]

/-- C1: for every plaintext (including the empty string and large inputs),
decrypting the envelope produced by `encrypt` under the same key returns
exactly the original plaintext.  The hypotheses are the AES-GCM library
contract at the point of use: the produced `ciphertext_with_tag` is a byte
string, and decrypting it under the same key and nonce returns the
plaintext. -/
theorem C1_round_trip (A : AEADPrimitive) (keyHex : Option (List Char))
    (key ivBytes ptBytes : List Nat)
    (hk : load_key keyHex = .ok key)
    (hv : ValidBytes (A.enc key ivBytes ptBytes))
    (hiv : ValidBytes ivBytes)
    (hd : A.dec key ivBytes (A.enc key ivBytes ptBytes) = some ptBytes) :
    ∀ env, encrypt A keyHex ivBytes ptBytes = .ok env →
      decrypt A keyHex env = .ok (.ok ptBytes) := by
  intro env henc
  simp only [encrypt, hk] at henc
  rw [Except.ok.injEq] at henc
  subst henc
  simp only [decrypt, hk, Except.ok.injEq]
  simp only [encryptBody]
  rw [decryptBody_encoded A key _ _ _ (validBytes_ctOf _ hv) hiv (validBytes_tagOf _ hv)]
  rw [ctOf_append_tagOf, hd]

/-- Witness for C1 at a concrete key, nonce and plaintext. -/
theorem C1_round_trip_witness :
    decrypt modelAEAD (some (List.replicate 64 '0')) (encryptBody modelAEAD keyW ivW ptW) =
      .ok (.ok ptW) :=
  C1_round_trip modelAEAD (some (List.replicate 64 '0')) keyW ivW ptW rfl (by decide)
    (by decide) (by decide) (encryptBody modelAEAD keyW ivW ptW) rfl

/-- C10 (implicit): the envelope has a base64-decoded ciphertext exactly as
long as the plaintext's UTF-8 encoding (no padding), a 12-byte nonce and a
16-byte tag.  The hypothesis `hlen` is the AES-GCM contract that
`ciphertext_with_tag` is plaintext length plus 16. -/
theorem C10_envelope_shape (A : AEADPrimitive) (key ivBytes ptBytes : List Nat)
    (hiv : ValidBytes ivBytes) (hiv12 : ivBytes.length = 12)
    (hv : ValidBytes (A.enc key ivBytes ptBytes))
    (hlen : (A.enc key ivBytes ptBytes).length = ptBytes.length + 16) :
    b64decodeBytes ((encryptBody A key ivBytes ptBytes).ciphertext)
        = some (ctOf (A.enc key ivBytes ptBytes)) ∧
    (ctOf (A.enc key ivBytes ptBytes)).length = ptBytes.length ∧
    b64decodeBytes ((encryptBody A key ivBytes ptBytes).iv) = some ivBytes ∧
    ivBytes.length = 12 ∧
    b64decodeBytes ((encryptBody A key ivBytes ptBytes).tag)
        = some (tagOf (A.enc key ivBytes ptBytes)) ∧
    (tagOf (A.enc key ivBytes ptBytes)).length = 16 := by
  refine ⟨?_, ?_, ?_, hiv12, ?_, ?_⟩
  · exact b64_roundtrip _ (validBytes_ctOf _ hv)
  · simp only [ctOf, List.length_take]
    omega
  · exact b64_roundtrip _ hiv
  · exact b64_roundtrip _ (validBytes_tagOf _ hv)
  · simp only [tagOf, List.length_drop]
    omega

/-- Witness for C10 at a concrete key, nonce and plaintext. -/
theorem C10_envelope_shape_witness :
    b64decodeBytes ((encryptBody modelAEAD keyW ivW ptW).ciphertext)
        = some (ctOf (modelAEAD.enc keyW ivW ptW)) ∧
    (ctOf (modelAEAD.enc keyW ivW ptW)).length = ptW.length ∧
    b64decodeBytes ((encryptBody modelAEAD keyW ivW ptW).iv) = some ivW ∧
    ivW.length = 12 ∧
    b64decodeBytes ((encryptBody modelAEAD keyW ivW ptW).tag)
        = some (tagOf (modelAEAD.enc keyW ivW ptW)) ∧
    (tagOf (modelAEAD.enc keyW ivW ptW)).length = 16 :=
  C10_envelope_shape modelAEAD keyW ivW ptW (by decide) (by decide) (by decide) (by decide)

/-- C8: modelling the random source as an input, the nonce placed in the
envelope is exactly the supplied random bytes; it does not depend on the
plaintext, the key or the cipher, and distinct random bytes give distinct
envelope nonces. -/
theorem C8_nonce_freshness (A A2 : AEADPrimitive) (key key2 ivBytes ivBytes2 ptBytes ptBytes2 : List Nat)
    (hiv : ValidBytes ivBytes) (hiv2 : ValidBytes ivBytes2) :
    (encryptBody A key ivBytes ptBytes).iv = b64encodeBytes ivBytes ∧
    b64decodeBytes ((encryptBody A key ivBytes ptBytes).iv) = some ivBytes ∧
    (encryptBody A key ivBytes ptBytes).iv = (encryptBody A2 key2 ivBytes ptBytes2).iv ∧
    (ivBytes ≠ ivBytes2 →
      (encryptBody A key ivBytes ptBytes).iv ≠ (encryptBody A key ivBytes2 ptBytes).iv) := by
  refine ⟨rfl, b64_roundtrip _ hiv, rfl, ?_⟩
  intro hne heq
  simp only [encryptBody] at heq
  have h1 := b64_roundtrip ivBytes hiv
  rw [heq, b64_roundtrip ivBytes2 hiv2, Option.some.injEq] at h1
  exact hne h1.symm

/-- Witness for C8 at two concrete distinct nonces. -/
theorem C8_nonce_freshness_witness :
    (encryptBody modelAEAD keyW ivW ptW).iv = b64encodeBytes ivW ∧
    b64decodeBytes ((encryptBody modelAEAD keyW ivW ptW).iv) = some ivW ∧
    (encryptBody modelAEAD keyW ivW ptW).iv =
      (encryptBody modelAEAD ptW ivW keyW).iv ∧
    (ivW ≠ List.replicate 12 9 →
      (encryptBody modelAEAD keyW ivW ptW).iv ≠
        (encryptBody modelAEAD keyW (List.replicate 12 9) ptW).iv) :=
  C8_nonce_freshness modelAEAD modelAEAD keyW ptW ivW (List.replicate 12 9) ptW keyW
    (by decide) (by decide)

/-- Outcome of `AESGCM(key).decrypt(nonce, data, None)` with the library's
two failure modes distinguished: `invalidTag` is
`cryptography.exceptions.InvalidTag` (tag verification failed), and
`valueError` is the `ValueError` the primitive raises when it refuses the
input outright — in particular a nonce length outside the range it accepts
for GCM (e.g. an empty nonce). -/
inductive GCMDecOutcome where
  | ok (ptBytes : List Nat)
  | invalidTag
  | valueError
deriving DecidableEq

/-- Outcome of `POST /decrypt` as classified by `decrypt_endpoint`
(`routers/encrypt.py` lines 27-40): `ok` carries the decoded plaintext
string (200), `authFailure` is the `InvalidTag` branch (422, the tamper
signal), and `decodingError` is the catch-all branch (400) covering
`binascii.Error` from base64, `ValueError` from the primitive, and
`UnicodeDecodeError` from the final plaintext decode. -/
inductive RouterDecryptResult where
  | ok (plaintext : List Char)
  | authFailure
  | decodingError
deriving DecidableEq

/-- `decrypt` (`services/encryption.py` lines 73-84) combined with the
error classification of `decrypt_endpoint` (`routers/encrypt.py` lines
27-40), with the AEAD primitive's failure modes distinguished (`gcmDec`,
abstract library code) and the final `plaintext_bytes.decode('utf-8')`
modelled by `utf8dec` (abstract as well; `none` is `UnicodeDecodeError`).
No length check is performed on any field: whether a wrong-length nonce
becomes a 400 or a 422 is decided entirely by which exception the
primitive raises. -/
def decryptClassified (gcmDec : List Nat → List Nat → List Nat → GCMDecOutcome)
    (utf8dec : List Nat → Option (List Char)) (key : List Nat) (e : Envelope) :
    RouterDecryptResult :=
  match b64decodeBytes e.ciphertext, b64decodeBytes e.iv, b64decodeBytes e.tag with
  | some ciphertext, some iv, some tag =>
    match gcmDec key iv (ciphertext ++ tag) with
    | .ok ptBytes =>
      match utf8dec ptBytes with
      | some s => .ok s
      | none => .decodingError
    | .invalidTag => .authFailure
    | .valueError => .decodingError
  | _, _, _ => .decodingError

/-- Concrete inhabitant of the distinguished-outcome decrypt interface,
built on the model primitive: nonce lengths outside 8..128 bytes are
refused with `valueError` (mirroring the range the cryptography library
accepts for GCM); otherwise tag verification decides between success and
`invalidTag`. -/
def modelGCMDec (key nonce c : List Nat) : GCMDecOutcome :=
  if nonce.length < 8 ∨ 128 < nonce.length then .valueError
  else
    match modelDec key nonce c with
    | some ptBytes => .ok ptBytes
    | none => .invalidTag

/-- Concrete inhabitant of the `bytes.decode('utf-8')` interface: decodes
the ASCII subset, refuses anything else.  Used only to witness the
classification theorem at concrete inputs. -/
def modelUtf8Dec (bs : List Nat) : Option (List Char) :=
  if bs.all (fun b => b < 128) then some (bs.map Char.ofNat) else none

/-- C9 (amended): an envelope field that is not valid transport encoding
fails with `DecodingError` and yields no plaintext; but `decrypt` itself
never validates decoded nonce or tag lengths (`iv` and `tg` below are
arbitrary byte strings).  The fields go straight to the AEAD primitive and
the primitive's exception decides the kind: a refused nonce length
(`ValueError`, e.g. 0 bytes) also lands in the `DecodingError` class via
the router's catch-all, while an accepted wrong-length nonce (e.g. 13
bytes) or a wrong-length tag fails tag verification and surfaces as
`AuthenticationFailure`, not `DecodingError`.  A plaintext is returned only
when the primitive succeeds and its output decodes as UTF-8; ciphertext
length is unconstrained throughout. -/
theorem C9_error_classification (gcmDec : List Nat → List Nat → List Nat → GCMDecOutcome)
    (utf8dec : List Nat → Option (List Char)) (key : List Nat) (e : Envelope) :
    ((b64decodeBytes e.ciphertext = none ∨ b64decodeBytes e.iv = none ∨
        b64decodeBytes e.tag = none) →
      decryptClassified gcmDec utf8dec key e = .decodingError) ∧
    (∀ ct iv tg, b64decodeBytes e.ciphertext = some ct → b64decodeBytes e.iv = some iv →
      b64decodeBytes e.tag = some tg →
      ((gcmDec key iv (ct ++ tg) = .invalidTag →
          decryptClassified gcmDec utf8dec key e = .authFailure) ∧
        (gcmDec key iv (ct ++ tg) = .valueError →
          decryptClassified gcmDec utf8dec key e = .decodingError) ∧
        (∀ ptBytes s, gcmDec key iv (ct ++ tg) = .ok ptBytes → utf8dec ptBytes = some s →
          decryptClassified gcmDec utf8dec key e = .ok s) ∧
        (∀ ptBytes, gcmDec key iv (ct ++ tg) = .ok ptBytes → utf8dec ptBytes = none →
          decryptClassified gcmDec utf8dec key e = .decodingError))) := by
  constructor
  · intro h
    rcases h1 : b64decodeBytes e.ciphertext with _ | ct <;>
      rcases h2 : b64decodeBytes e.iv with _ | iv <;>
        rcases h3 : b64decodeBytes e.tag with _ | tg <;>
          (simp only [decryptClassified, h1, h2, h3]; try rfl)
    rcases h with h | h | h
    · rw [h1] at h
      exact absurd h (by simp)
    · rw [h2] at h
      exact absurd h (by simp)
    · rw [h3] at h
      exact absurd h (by simp)
  · intro ct iv tg h1 h2 h3
    refine ⟨?_, ?_, ?_, ?_⟩
    · intro hg
      simp only [decryptClassified, h1, h2, h3, hg]
    · intro hg
      simp only [decryptClassified, h1, h2, h3, hg]
    · intro ptBytes s hg hu
      simp only [decryptClassified, h1, h2, h3, hg, hu]
    · intro ptBytes hg hu
      simp only [decryptClassified, h1, h2, h3, hg, hu]

/-- Witness for the amended C9 at concrete envelopes: a 13-byte nonce
(accepted by the primitive, tag mismatch) gives the authentication
failure; an empty nonce (refused by the primitive with `ValueError`) gives
the decoding error; an honest envelope decrypts to its plaintext; a valid
envelope of non-UTF-8 plaintext bytes gives the decoding error. -/
theorem C9_error_classification_witness :
    decryptClassified modelGCMDec modelUtf8Dec keyW
      { ciphertext := b64encodeBytes [1, 2, 3]
      , iv := b64encodeBytes (List.replicate 13 0)
      , tag := b64encodeBytes (List.replicate 16 0) } = .authFailure ∧
    decryptClassified modelGCMDec modelUtf8Dec keyW
      { ciphertext := b64encodeBytes [1, 2, 3]
      , iv := b64encodeBytes []
      , tag := b64encodeBytes (List.replicate 16 0) } = .decodingError ∧
    decryptClassified modelGCMDec modelUtf8Dec keyW
      { ciphertext := b64encodeBytes ptW
      , iv := b64encodeBytes ivW
      , tag := b64encodeBytes (modelTag keyW ivW ptW) } = .ok ['h', 'i'] ∧
    decryptClassified modelGCMDec modelUtf8Dec keyW
      { ciphertext := b64encodeBytes [200]
      , iv := b64encodeBytes ivW
      , tag := b64encodeBytes (modelTag keyW ivW [200]) } = .decodingError := by
  refine ⟨?_, ?_, ?_, ?_⟩
  · exact ((C9_error_classification modelGCMDec modelUtf8Dec keyW _).2
      [1, 2, 3] (List.replicate 13 0) (List.replicate 16 0)
      (by decide) (by decide) (by decide)).1 (by decide)
  · exact (((C9_error_classification modelGCMDec modelUtf8Dec keyW _).2
      [1, 2, 3] [] (List.replicate 16 0)
      (by decide) (by decide) (by decide)).2).1 (by decide)
  · exact (((C9_error_classification modelGCMDec modelUtf8Dec keyW _).2
      ptW ivW (modelTag keyW ivW ptW)
      (by decide) (by decide) (by decide)).2).2.1 [104, 105] ['h', 'i']
      (by decide) (by decide)
  · exact (((C9_error_classification modelGCMDec modelUtf8Dec keyW _).2
      [200] ivW (modelTag keyW ivW [200])
      (by decide) (by decide) (by decide)).2).2.2 [200] (by decide) (by decide)

/-- Counterexample to C9 as stated: an envelope whose nonce field decodes
to 13 bytes (valid base64, wrong length) does not fail with the
decoding-error kind; no length check is performed, the primitive accepts a
13-byte GCM nonce, tag verification fails, and the failure surfaces as the
authentication failure (422), an error kind distinct from the decoding
error the claim requires. -/
theorem C9_counterexample :
    b64decodeBytes (b64encodeBytes (List.replicate 13 0)) = some (List.replicate 13 0) ∧
    (List.replicate 13 (0 : Nat)).length ≠ 12 ∧
    decryptClassified modelGCMDec modelUtf8Dec keyW
      { ciphertext := b64encodeBytes [1, 2, 3]
      , iv := b64encodeBytes (List.replicate 13 0)
      , tag := b64encodeBytes (List.replicate 16 0) } = .authFailure ∧
    RouterDecryptResult.authFailure ≠ RouterDecryptResult.decodingError := by decide

/-- Helper: tampering keeps the ciphertext bytes in range. -/
theorem validBytes_tamperedCt (site : TamperSite) (ct : List Nat) (i j : Nat)
    (h : ValidBytes ct) (hj : j < 8) : ValidBytes (tamperedCt site ct i j) := by
  cases site <;> simp only [tamperedCt]
  · exact validBytes_flipBit _ _ _ h hj
  · exact h
  · exact h

/-- Helper: tampering keeps the nonce bytes in range. -/
theorem validBytes_tamperedIv (site : TamperSite) (iv : List Nat) (i j : Nat)
    (h : ValidBytes iv) (hj : j < 8) : ValidBytes (tamperedIv site iv i j) := by
  cases site <;> simp only [tamperedIv]
  · exact h
  · exact validBytes_flipBit _ _ _ h hj
  · exact h

/-- Helper: tampering keeps the tag bytes in range. -/
theorem validBytes_tamperedTag (site : TamperSite) (tg : List Nat) (i j : Nat)
    (h : ValidBytes tg) (hj : j < 8) : ValidBytes (tamperedTag site tg i j) := by
  cases site <;> simp only [tamperedTag]
  · exact h
  · exact h
  · exact validBytes_flipBit _ _ _ h hj

/-- C2: flipping any single bit of the ciphertext, nonce or tag of an
envelope produced by `encrypt` makes `decrypt` fail with the authentication
failure (`InvalidTag`, mapped to 422), distinct from a decoding error, and
never return a plaintext; the flipped field genuinely differs from the
original.  The hypothesis `hprim` is the AES-GCM tamper-detection contract
at the tampered input: the primitive rejects it with `InvalidTag`. -/
theorem C2_tamper_detection (A : AEADPrimitive) (key ivBytes ptBytes : List Nat)
    (site : TamperSite) (i j : Nat)
    (hv : ValidBytes (A.enc key ivBytes ptBytes)) (hiv : ValidBytes ivBytes) (hj : j < 8)
    (hi : i < siteLen site (ctOf (A.enc key ivBytes ptBytes)) ivBytes
      (tagOf (A.enc key ivBytes ptBytes)))
    (hprim : A.dec key (tamperedIv site ivBytes i j)
        (tamperedCt site (ctOf (A.enc key ivBytes ptBytes)) i j ++
          tamperedTag site (tagOf (A.enc key ivBytes ptBytes)) i j) = none) :
    decryptBody A key
      { ciphertext := b64encodeBytes (tamperedCt site (ctOf (A.enc key ivBytes ptBytes)) i j)
      , iv := b64encodeBytes (tamperedIv site ivBytes i j)
      , tag := b64encodeBytes (tamperedTag site (tagOf (A.enc key ivBytes ptBytes)) i j) } =
      .authFailure ∧
    (tamperedCt site (ctOf (A.enc key ivBytes ptBytes)) i j,
      tamperedIv site ivBytes i j,
      tamperedTag site (tagOf (A.enc key ivBytes ptBytes)) i j) ≠
      (ctOf (A.enc key ivBytes ptBytes), ivBytes, tagOf (A.enc key ivBytes ptBytes)) := by
  constructor
  · rw [decryptBody_encoded A key _ _ _
      (validBytes_tamperedCt site _ i j (validBytes_ctOf _ hv) hj)
      (validBytes_tamperedIv site _ i j hiv hj)
      (validBytes_tamperedTag site _ i j (validBytes_tagOf _ hv) hj)]
    rw [hprim]
  · intro heq
    rw [Prod.mk.injEq, Prod.mk.injEq] at heq
    cases site
    · simp only [tamperedCt, siteLen] at heq hi
      exact flipBit_ne _ _ _ hi heq.1
    · simp only [tamperedIv, siteLen] at heq hi
      exact flipBit_ne _ _ _ hi heq.2.1
    · simp only [tamperedTag, siteLen] at heq hi
      exact flipBit_ne _ _ _ hi heq.2.2

/-- Witness for C2: flipping bit 0 of ciphertext byte 0 at a concrete key,
nonce and plaintext. -/
theorem C2_tamper_detection_witness :
    decryptBody modelAEAD keyW
      { ciphertext := b64encodeBytes (tamperedCt .ct (ctOf (modelAEAD.enc keyW ivW ptW)) 0 0)
      , iv := b64encodeBytes (tamperedIv .ct ivW 0 0)
      , tag := b64encodeBytes (tamperedTag .ct (tagOf (modelAEAD.enc keyW ivW ptW)) 0 0) } =
      .authFailure ∧
    (tamperedCt .ct (ctOf (modelAEAD.enc keyW ivW ptW)) 0 0,
      tamperedIv .ct ivW 0 0,
      tamperedTag .ct (tagOf (modelAEAD.enc keyW ivW ptW)) 0 0) ≠
      (ctOf (modelAEAD.enc keyW ivW ptW), ivW, tagOf (modelAEAD.enc keyW ivW ptW)) :=
  C2_tamper_detection modelAEAD keyW ivW ptW .ct 0 0 (by decide) (by decide) (by decide)
    (by decide) (by decide)

/-- C5 (amended): an absent key or a key whose decoded length is not 32
bytes raises the distinguished configuration error, but a non-hex key value
raises a different error kind (the uncaught `ValueError` from
`bytes.fromhex`); the check runs lazily inside every `encrypt`/`decrypt`
call — before any cryptographic operation in that call, but not at startup
— and a key-loading error short-circuits the whole operation. -/
theorem C5_key_validation (s : List Char) (hs : s ≠ []) :
    load_key none = .error .configError ∧
    (bytesFromHex s = none → load_key (some s) = .error .valueError) ∧
    (∀ k, bytesFromHex s = some k → k.length ≠ 32 → load_key (some s) = .error .configError) ∧
    (∀ k, bytesFromHex s = some k → k.length = 32 → load_key (some s) = .ok k) ∧
    (∀ A ivBytes ptBytes err, load_key (some s) = .error err →
      encrypt A (some s) ivBytes ptBytes = .error err) ∧
    (∀ A e err, load_key (some s) = .error err → decrypt A (some s) e = .error err) := by
  have hse : s.isEmpty = false := by
    cases s
    · exact absurd rfl hs
    · rfl
  refine ⟨rfl, ?_, ?_, ?_, ?_, ?_⟩
  · intro h
    simp only [load_key, hse, Bool.false_eq_true, if_false, h]
  · intro k hk hne
    simp only [load_key, hse, Bool.false_eq_true, if_false, hk, if_neg hne]
  · intro k hk hlen
    simp only [load_key, hse, Bool.false_eq_true, if_false, hk, if_pos hlen]
  · intro A ivBytes ptBytes err h
    simp only [encrypt, h]
  · intro A e err h
    simp only [decrypt, h]

/-- Witness for C5 at the concrete non-hex key value "zz". -/
theorem C5_key_validation_witness :
    load_key none = .error .configError ∧
    (bytesFromHex ['z', 'z'] = none → load_key (some ['z', 'z']) = .error .valueError) ∧
    (∀ k, bytesFromHex ['z', 'z'] = some k → k.length ≠ 32 →
      load_key (some ['z', 'z']) = .error .configError) ∧
    (∀ k, bytesFromHex ['z', 'z'] = some k → k.length = 32 →
      load_key (some ['z', 'z']) = .ok k) ∧
    (∀ A ivBytes ptBytes err, load_key (some ['z', 'z']) = .error err →
      encrypt A (some ['z', 'z']) ivBytes ptBytes = .error err) ∧
    (∀ A e err, load_key (some ['z', 'z']) = .error err →
      decrypt A (some ['z', 'z']) e = .error err) :=
  C5_key_validation ['z', 'z'] (by decide)

/-- Counterexample to C5 as stated: the non-hex key value "zz" does not
raise the configuration-error kind; it raises the distinct `ValueError`
kind coming from `bytes.fromhex`. -/
theorem C5_counterexample :
    load_key (some ['z', 'z']) = .error .valueError ∧
    KeyError'.valueError ≠ KeyError'.configError :=
  ⟨rfl, by decide⟩

/-- Helper: the outbound URL is the fixed base followed by the five-character
digest truncation. -/
theorem outboundRequest_url (sha1hex : List Char → List Char) (pw : List Char) :
    (outboundRequest sha1hex pw).url =
      rangeUrlBase ++ ((sha1hex pw).map Char.toUpper).take 5 := by
  simp [outboundRequest, rangeUrlBase, List.append_assoc]

/-- C3: the request built by `check` carries only the first five characters
of the uppercase SHA-1 digest: the URL is the fixed base plus that prefix,
the headers are two constants, the 35-character digest suffix and the full
40-character digest never occur anywhere in the URL, and two passwords whose
digests agree on the five-character prefix produce identical outbound
requests (so no other part of the digest or password can flow into the
request).  The hypotheses are the `hashlib` contract: `hexdigest()` has 40
characters, all hex. -/
theorem C3_anonymity (sha1hex : List Char → List Char) (pw pw2 : List Char)
    (hlen : ((sha1hex pw).map Char.toUpper).length = 40)
    (hhex : ∀ c ∈ (sha1hex pw).map Char.toUpper, hexUp c = true) :
    (outboundRequest sha1hex pw).url =
      HIBP_API_URL ++ '/' :: (((sha1hex pw).map Char.toUpper).take 5) ∧
    (outboundRequest sha1hex pw).headers =
      [("Add-Padding".toList, "true".toList), ("User-Agent".toList, "SecureVault/1.0".toList)] ∧
    (¬ ∃ s t, s ++ ((sha1hex pw).map Char.toUpper).drop 5 ++ t =
      (outboundRequest sha1hex pw).url) ∧
    (¬ ∃ s t, s ++ (sha1hex pw).map Char.toUpper ++ t = (outboundRequest sha1hex pw).url) ∧
    (((sha1hex pw2).map Char.toUpper).take 5 = ((sha1hex pw).map Char.toUpper).take 5 →
      outboundRequest sha1hex pw2 = outboundRequest sha1hex pw) := by
  refine ⟨rfl, rfl, ?_, ?_, ?_⟩
  · intro hex
    rw [outboundRequest_url] at hex
    have hle := hexRun_le (((sha1hex pw).map Char.toUpper).drop 5)
      (((sha1hex pw).map Char.toUpper).take 5)
      (fun c hc => hhex c ((List.drop_sublist _ _).subset hc)) hex
    rw [List.length_drop, List.length_take, hlen] at hle
    omega
  · intro hex
    rw [outboundRequest_url] at hex
    have hle := hexRun_le ((sha1hex pw).map Char.toUpper)
      (((sha1hex pw).map Char.toUpper).take 5) hhex hex
    rw [List.length_take, hlen] at hle
    omega
  · intro h
    simp only [outboundRequest, h]

/-- A stand-in for `hashlib.sha1(...).hexdigest()` with a fixed plausible
40-character lowercase hex digest. -/
def stubSha1Hex : List Char → List Char :=
  fun _ => "0123456789abcdef0123456789abcdef01234567".toList

/-- Witness for C3 at a concrete digest function and password. -/
theorem C3_anonymity_witness :
    (outboundRequest stubSha1Hex "hunter2".toList).url =
      HIBP_API_URL ++ '/' :: (((stubSha1Hex "hunter2".toList).map Char.toUpper).take 5) ∧
    (outboundRequest stubSha1Hex "hunter2".toList).headers =
      [("Add-Padding".toList, "true".toList), ("User-Agent".toList, "SecureVault/1.0".toList)] ∧
    (¬ ∃ s t, s ++ ((stubSha1Hex "hunter2".toList).map Char.toUpper).drop 5 ++ t =
      (outboundRequest stubSha1Hex "hunter2".toList).url) ∧
    (¬ ∃ s t, s ++ (stubSha1Hex "hunter2".toList).map Char.toUpper ++ t =
      (outboundRequest stubSha1Hex "hunter2".toList).url) ∧
    (((stubSha1Hex "other".toList).map Char.toUpper).take 5 =
        ((stubSha1Hex "hunter2".toList).map Char.toUpper).take 5 →
      outboundRequest stubSha1Hex "other".toList = outboundRequest stubSha1Hex "hunter2".toList) :=
  C3_anonymity stubSha1Hex "hunter2".toList "other".toList (by decide) (by decide)

/-- C4: a timed-out, unreachable, or non-2xx range lookup makes `check`
fail with the service-unavailable error (503 at the router); it never
returns a `breached: false` default in any failure case. -/
theorem C4_unavailability (sha1hex : List Char → List Char) (net : HttpRequest → NetOutcome)
    (pw : List Char)
    (hnet : net (outboundRequest sha1hex pw) = .timeout ∨
      net (outboundRequest sha1hex pw) = .connectError ∨
      ∃ status body, net (outboundRequest sha1hex pw) = .ok status body ∧
        (status < 200 ∨ 300 ≤ status)) :
    check_password_breach sha1hex net pw = .serviceError := by
  rcases hnet with h | h | ⟨status, body, h, hstat⟩ <;>
    simp only [check_password_breach, h]
  rw [if_pos hstat]

/-- Witness for C4 at a concrete timed-out lookup. -/
theorem C4_unavailability_witness :
    check_password_breach stubSha1A (fun _ => NetOutcome.timeout) "password".toList =
      .serviceError :=
  C4_unavailability stubSha1A (fun _ => NetOutcome.timeout) "password".toList (Or.inl rfl)

/-- Helper: on a 200 response, `check` reduces to the local suffix scan. -/
theorem check_password_breach_ok (sha1hex : List Char → List Char)
    (net : HttpRequest → NetOutcome) (pw body : List Char)
    (hnet : net (outboundRequest sha1hex pw) = .ok 200 body) :
    check_password_breach sha1hex net pw =
      scanLines (((sha1hex pw).map Char.toUpper).drop 5) (splitLines body) := by
  simp only [check_password_breach, hnet]
  rw [if_neg (by decide)]

/-- C7: on a well-formed range response, `check` returns
`{breached: true, count: n}` for the first line whose suffix equals the
locally computed digest suffix under case normalization, and
`{breached: false, count: 0}` when no line matches.  The lines before the
match must be well formed (the scan unpacks every line it passes), and the
count of the matching line must parse. -/
theorem C7_breach_matching (sha1hex : List Char → List Char) (net : HttpRequest → NetOutcome)
    (pw body : List Char)
    (hnet : net (outboundRequest sha1hex pw) = .ok 200 body) :
    (∀ pre l rest a b n,
        splitLines body = pre ++ l :: rest →
        (∀ l2 ∈ pre, wfNonMatch (((sha1hex pw).map Char.toUpper).drop 5) l2 = true) →
        l.splitOn ':' = [a, b] →
        a.map Char.toUpper = ((sha1hex pw).map Char.toUpper).drop 5 →
        parseIntPy b = some n →
        check_password_breach sha1hex net pw = .result true n) ∧
    ((∀ l2 ∈ splitLines body, wfNonMatch (((sha1hex pw).map Char.toUpper).drop 5) l2 = true) →
        check_password_breach sha1hex net pw = .result false 0) := by
  constructor
  · intro pre l rest a b n hsplit hpre hsp hmatch hparse
    rw [check_password_breach_ok sha1hex net pw body hnet, hsplit,
      scanLines_append_skip _ _ _ hpre]
    simp only [scanLines, hsp, if_pos hmatch, hparse]
  · intro hall
    rw [check_password_breach_ok sha1hex net pw body hnet, ← List.append_nil (splitLines body),
      scanLines_append_skip _ _ _ hall]
    rfl

/-- The concrete response body from the claim: two records, counts 3 and 10. -/
def bodyC7 : List Char :=
  List.replicate 35 'A' ++ ":3".toList ++ '\n' :: (List.replicate 35 'B' ++ ":10".toList)

/-- Witness for C7 on the concrete body: a digest suffix matching the first
record yields count 3; a suffix matching neither record yields false, 0. -/
theorem C7_breach_matching_witness :
    check_password_breach stubSha1A (fun _ => NetOutcome.ok 200 bodyC7) "password".toList =
      .result true 3 ∧
    check_password_breach stubSha1C (fun _ => NetOutcome.ok 200 bodyC7) "password".toList =
      .result false 0 := by
  constructor
  · exact (C7_breach_matching stubSha1A (fun _ => NetOutcome.ok 200 bodyC7) "password".toList
      bodyC7 rfl).1 [] (List.replicate 35 'A' ++ ":3".toList)
      [List.replicate 35 'B' ++ ":10".toList] (List.replicate 35 'A') ['3'] 3
      (by decide) (by simp) (by decide) (by decide) (by decide)
  · exact (C7_breach_matching stubSha1C (fun _ => NetOutcome.ok 200 bodyC7) "password".toList
      bodyC7 rfl).2 (by decide)

/-- C6 (amended): malformed response lines are not skipped.  A line whose
`split(":")` does not yield exactly two fields aborts the whole scan with a
`ValueError` (surfaced as a 503 by the router), so well-formed lines after
it are never examined; only a line with a non-integer count whose suffix
does not match is passed over, because the count field is parsed lazily,
only on a suffix match. -/
theorem C6_malformed_line (sha1hex : List Char → List Char) (net : HttpRequest → NetOutcome)
    (pw body : List Char)
    (hnet : net (outboundRequest sha1hex pw) = .ok 200 body) :
    (∀ pre l rest,
        splitLines body = pre ++ l :: rest →
        (∀ l2 ∈ pre, wfNonMatch (((sha1hex pw).map Char.toUpper).drop 5) l2 = true) →
        (l.splitOn ':').length ≠ 2 →
        check_password_breach sha1hex net pw = .valueError) ∧
    (∀ l rest a b,
        splitLines body = l :: rest →
        l.splitOn ':' = [a, b] →
        a.map Char.toUpper ≠ ((sha1hex pw).map Char.toUpper).drop 5 →
        check_password_breach sha1hex net pw =
          scanLines (((sha1hex pw).map Char.toUpper).drop 5) rest) := by
  constructor
  · intro pre l rest hsplit hpre hbad
    rw [check_password_breach_ok sha1hex net pw body hnet, hsplit,
      scanLines_append_skip _ _ _ hpre, scanLines_badSplit _ _ _ hbad]
  · intro l rest a b hsplit hsp hne
    rw [check_password_breach_ok sha1hex net pw body hnet, hsplit,
      scanLines_nonMatch_skip _ _ _ _ _ hsp hne]

/-- A response body whose first line has no `:` separator, followed by a
well-formed record that matches the digest suffix of `stubSha1A`. -/
def bodyC6 : List Char :=
  "NOCOLON".toList ++ '\n' :: (List.replicate 35 'A' ++ ":3".toList)

/-- A response body whose first record has a non-integer count and a
non-matching suffix, followed by a well-formed record. -/
def bodyC6b : List Char :=
  List.replicate 35 'B' ++ ":xx".toList ++ '\n' :: (List.replicate 35 'A' ++ ":3".toList)

/-- Witness for the amended C6: on `bodyC6` the separator-less first line
aborts the scan; on `bodyC6b` the non-matching bad-count line is passed
over and the scan continues with the remaining lines. -/
theorem C6_malformed_line_witness :
    check_password_breach stubSha1A (fun _ => NetOutcome.ok 200 bodyC6) "password".toList =
      .valueError ∧
    check_password_breach stubSha1A (fun _ => NetOutcome.ok 200 bodyC6b) "password".toList =
      scanLines (((stubSha1A "password".toList).map Char.toUpper).drop 5)
        [List.replicate 35 'A' ++ ":3".toList] := by
  constructor
  · exact (C6_malformed_line stubSha1A (fun _ => NetOutcome.ok 200 bodyC6) "password".toList
      bodyC6 rfl).1 [] ("NOCOLON".toList) [List.replicate 35 'A' ++ ":3".toList]
      (by decide) (by simp) (by decide)
  · exact (C6_malformed_line stubSha1A (fun _ => NetOutcome.ok 200 bodyC6b) "password".toList
      bodyC6b rfl).2 (List.replicate 35 'B' ++ ":xx".toList)
      [List.replicate 35 'A' ++ ":3".toList] (List.replicate 35 'B') (['x', 'x'])
      (by decide) (by decide) (by decide)

/-- Counterexample to C6 as stated: a malformed line (missing `:`) is not
skipped; it aborts the whole scan with a `ValueError`, even though a later
well-formed line matches the digest suffix (the claim would require the
result `{breached: true, count: 3}`). -/
theorem C6_counterexample :
    check_password_breach stubSha1A (fun _ => NetOutcome.ok 200 bodyC6) "password".toList =
      .valueError ∧
    BreachOutcome.valueError ≠ BreachOutcome.result true 3 := by decide
